import Mathlib

/-!
Verification of the object-storage module (src/api/storage.py) of
deepwiki-open.  The module is a set of small wrapper functions around a
remote S3-style object store.  We embed each function shallowly:

* module-level configuration (environment variables read at import time)
  becomes an explicit Config record;
* each remote or filesystem call an operation makes is driven by an
  explicit oracle argument describing its outcome (success, client error
  with a response code, or any other exception);
* each operation returns an OpOut: the Python return value (or an
  uncaught exception, modelled as Except.error), together with the list
  of observable events it performed, in order: remote-service calls,
  error-severity log records, directory creation and file writes.

The translation follows the Python source line by line; comments quote
the corresponding source lines.
-/

set_option linter.unusedVariables false

deriving instance DecidableEq for Except

/-- Module-level configuration of storage.py (lines 13-18).
storageBackend models STORAGE_BACKEND, already lowercased by the source.
s3EnabledEnv models S3_ENABLED_ENV, the result of testing the lowercased
environment value for membership in the truthy list.
s3Bucket models S3_BUCKET (environ.get with no default: None when unset).
keyNamespace models the S3 key namespace variable read with default
value deepwiki (the source calls it the key pre-fix). -/
structure Config where
  storageBackend : String
  s3EnabledEnv : Bool
  s3Bucket : Option String
  keyNamespace : String
  deriving DecidableEq, Repr

/-- Python truthiness of an optional string: None and the empty string
are falsy. -/
def pyTruthyOpt : Option String → Bool
  | none => false
  | some s => s ≠ ""

/-- storage.py line 21-22:
def s3_enabled() -> bool:
    return bool(S3_BUCKET) and (STORAGE_BACKEND == "s3" or S3_ENABLED_ENV) -/
def s3_enabled (cfg : Config) : Bool :=
  pyTruthyOpt cfg.s3Bucket && (cfg.storageBackend = "s3" || cfg.s3EnabledEnv)

/-- Python str.strip with the slash character: removes every leading and
trailing slash. -/
def stripSlashes (s : String) : String :=
  ⟨((s.data.dropWhile (fun c => c = '/')).reverse.dropWhile
      (fun c => c = '/')).reverse⟩

/-- Python str.replace of the one-character os.sep with a slash:
replaces each occurrence of sep in the string. -/
def replaceSep (sep : Char) (s : String) : String :=
  ⟨s.data.map (fun c => if c = sep then '/' else c)⟩

/-- storage.py lines 26-32: the loop of build_s3_key.  Empty parts are
skipped; each remaining part has os.sep replaced by a slash and is
stripped of leading and trailing slashes; parts that become empty are
skipped as well. -/
def cleanParts (sep : Char) (parts : List String) : List String :=
  parts.filterMap (fun part =>
    if part = "" then none
    else
      let normalized := stripSlashes (replaceSep sep part)
      if normalized = "" then none else some normalized)

/-- Python slash.join: joins a list of strings with a slash separator. -/
def joinSlash : List String → String
  | [] => ""
  | [s] => s
  | s :: t :: rest => s ++ "/" ++ joinSlash (t :: rest)

/-- storage.py lines 25-37:
def build_s3_key(*parts: str) -> str:
    cleaned_parts = []
    for part in parts: ...
    key = "/".join(cleaned_parts)
    prefix = (S3_PREFIX or "").strip("/")
    if prefix:
        return f"{prefix}/{key}" if key else prefix
    return key
sep is os.sep (a single character); ns is the configured namespace
string.  Note (ns or "") equals ns when ns is a string, since the empty
string maps to the empty string either way; stripSlashes covers both. -/
def build_s3_key (sep : Char) (ns : String) (parts : List String) : String :=
  let key := joinSlash (cleanParts sep parts)
  let p := stripSlashes ns
  if p ≠ "" then (if key ≠ "" then p ++ "/" ++ key else p) else key

/-- Observable events an operation performs, in order. -/
inductive Event where
  | remoteCall (name : String)
  | errorLog
  | makedirs (dir : String)
  | fileWrite (path : String)
  deriving DecidableEq, Repr

/-- Result of one public operation: the Python return value, with
Except.error marking an exception propagating across the public
boundary, plus the ordered trace of observable events. -/
structure OpOut (α : Type) where
  res : Except Unit α
  trace : List Event
  deriving DecidableEq, Repr

/-- Outcome of one boto3 call, as seen by the try blocks of the source:
the call returns, or raises a botocore ClientError carrying an optional
response code, or raises some exception that is not a ClientError. -/
inductive CallOutcome where
  | ok
  | clientError (code : Option String)
  | otherError
  deriving DecidableEq, Repr

/-- storage.py line 52 (and 66, 95): the test
exc.response.get("Error", ...).get("Code") in ["404", "NoSuchKey", "NotFound"]
where a missing code (None) is not in the list. -/
def isNotFoundCode : Option String → Bool
  | some c => c = "404" || c = "NoSuchKey" || c = "NotFound"
  | none => false

/-- storage.py lines 45-55:
def s3_object_exists(key):
    if not s3_enabled(): return False
    try:
        client.head_object(...); return True
    except ClientError as exc:
        if code in not-found list: return False
        logger.error(...); return False
Only ClientError is caught: any other exception from head_object
propagates out of the function. -/
def s3_object_exists (cfg : Config) (key : String) (head : CallOutcome) :
    OpOut Bool :=
  if s3_enabled cfg = false then ⟨.ok false, []⟩
  else
    match head with
    | .ok => ⟨.ok true, [.remoteCall "head_object"]⟩
    | .clientError code =>
        if isNotFoundCode code then ⟨.ok false, [.remoteCall "head_object"]⟩
        else ⟨.ok false, [.remoteCall "head_object", .errorLog]⟩
    | .otherError => ⟨.error (), [.remoteCall "head_object"]⟩

/-- Outcome of the get_object call of s3_read_json, over an abstract
document type.  ok (some doc): the call returned and the payload decoded
and parsed to doc.  ok none: the call returned but reading, decoding or
parsing the body raised (a non-ClientError exception).  The other two
constructors are as in CallOutcome. -/
inductive GetOutcome (α : Type) where
  | ok (doc : Option α)
  | clientError (code : Option String)
  | otherError
  deriving DecidableEq

/-- storage.py lines 58-72:
def s3_read_json(key):
    if not s3_enabled(): return None
    try:
        response = client.get_object(...)
        payload = response["Body"].read().decode("utf-8")
        return json.loads(payload)
    except ClientError as exc:
        if code in not-found list: return None
        logger.error(...); return None
    except Exception as exc:
        logger.error(...); return None
Every failure other than a not-found ClientError is logged and yields
None; nothing propagates. -/
def s3_read_json {α : Type} (cfg : Config) (key : String)
    (get : GetOutcome α) : OpOut (Option α) :=
  if s3_enabled cfg = false then ⟨.ok none, []⟩
  else
    match get with
    | .ok (some doc) => ⟨.ok (some doc), [.remoteCall "get_object"]⟩
    | .ok none => ⟨.ok none, [.remoteCall "get_object", .errorLog]⟩
    | .clientError code =>
        if isNotFoundCode code then ⟨.ok none, [.remoteCall "get_object"]⟩
        else ⟨.ok none, [.remoteCall "get_object", .errorLog]⟩
    | .otherError => ⟨.ok none, [.remoteCall "get_object", .errorLog]⟩

/-- Outcome of the body of s3_write_json: json.dumps raises before
put_object is reached, or put_object returns, or put_object raises. -/
inductive PutOutcome where
  | serializeFail
  | ok
  | err
  deriving DecidableEq, Repr

/-- storage.py lines 75-84:
def s3_write_json(key, data):
    if not s3_enabled(): return False
    try:
        payload = json.dumps(...); client.put_object(...); return True
    except Exception as exc:
        logger.error(...); return False -/
def s3_write_json (cfg : Config) (key : String) (put : PutOutcome) :
    OpOut Bool :=
  if s3_enabled cfg = false then ⟨.ok false, []⟩
  else
    match put with
    | .serializeFail => ⟨.ok false, [.errorLog]⟩
    | .ok => ⟨.ok true, [.remoteCall "put_object"]⟩
    | .err => ⟨.ok false, [.remoteCall "put_object", .errorLog]⟩

/-- Outcome of a call with no distinguished not-found branch in the
source (os.makedirs, upload_file, delete_object): it returns or it
raises. -/
inductive SimpleOutcome where
  | ok
  | err
  deriving DecidableEq, Repr

/-- Helper of splitSlash: walks the characters, accumulating the current
component in reverse. -/
def splitSlashGo : List Char → List Char → List String
  | [], cur => [String.mk cur.reverse]
  | c :: rest, cur =>
      if c = '/' then String.mk cur.reverse :: splitSlashGo rest []
      else splitSlashGo rest (c :: cur)

/-- Python str.split on the slash character: the list of slash-separated
components, keeping empty components. -/
def splitSlash (s : String) : List String := splitSlashGo s.data []

/-- Model of os.path.dirname on slash-separated paths: everything before
the final slash-separated component. -/
def dirname (p : String) : String :=
  joinSlash ((splitSlash p).dropLast)

/-- storage.py lines 87-101:
def s3_download_file(key, local_path):
    if not s3_enabled(): return False
    try:
        os.makedirs(os.path.dirname(local_path), exist_ok=True)
        client.download_file(S3_BUCKET, key, local_path); return True
    except ClientError as exc:
        if code in not-found list: return False
        logger.error(...); return False
    except Exception as exc:
        logger.error(...); return False
makedirs runs, inside the try, before the download; a makedirs failure
is caught by the generic handler.  On success the file is written at
local_path. -/
def s3_download_file (cfg : Config) (key localPath : String)
    (mk : SimpleOutcome) (dl : CallOutcome) : OpOut Bool :=
  if s3_enabled cfg = false then ⟨.ok false, []⟩
  else
    match mk with
    | .err => ⟨.ok false, [.errorLog]⟩
    | .ok =>
      match dl with
      | .ok =>
          ⟨.ok true, [.makedirs (dirname localPath),
            .remoteCall "download_file", .fileWrite localPath]⟩
      | .clientError code =>
          if isNotFoundCode code then
            ⟨.ok false, [.makedirs (dirname localPath),
              .remoteCall "download_file"]⟩
          else
            ⟨.ok false, [.makedirs (dirname localPath),
              .remoteCall "download_file", .errorLog]⟩
      | .otherError =>
          ⟨.ok false, [.makedirs (dirname localPath),
            .remoteCall "download_file", .errorLog]⟩

/-- storage.py lines 104-114:
def s3_upload_file(local_path, key):
    if not s3_enabled(): return False
    if not os.path.exists(local_path): return False
    try:
        client.upload_file(...); return True
    except Exception as exc:
        logger.error(...); return False
srcExists models os.path.exists(local_path). -/
def s3_upload_file (cfg : Config) (localPath key : String)
    (srcExists : Bool) (up : SimpleOutcome) : OpOut Bool :=
  if s3_enabled cfg = false then ⟨.ok false, []⟩
  else if srcExists = false then ⟨.ok false, []⟩
  else
    match up with
    | .ok => ⟨.ok true, [.remoteCall "upload_file"]⟩
    | .err => ⟨.ok false, [.remoteCall "upload_file", .errorLog]⟩

/-- storage.py lines 117-125:
def s3_delete_object(key):
    if not s3_enabled(): return False
    try:
        client.delete_object(...); return True
    except Exception as exc:
        logger.error(...); return False -/
def s3_delete_object (cfg : Config) (key : String) (del : SimpleOutcome) :
    OpOut Bool :=
  if s3_enabled cfg = false then ⟨.ok false, []⟩
  else
    match del with
    | .ok => ⟨.ok true, [.remoteCall "delete_object"]⟩
    | .err => ⟨.ok false, [.remoteCall "delete_object", .errorLog]⟩

/-- One raw entry of a listing page, as handed back by the service:
the mandatory Key, the optional LastModified timestamp (modelled as an
abstract integer timestamp) and the optional Size. -/
structure RawEntry where
  objKey : String
  lastModified : Option Int
  sizeField : Option Int
  deriving DecidableEq, Repr

/-- The listing entry dict built on storage.py lines 136-142:
items.append(key=entry["Key"], last_modified=entry.get("LastModified"),
size=entry.get("Size", 0)). -/
structure ListingEntry where
  key : String
  last_modified : Option Int
  size : Int
  deriving DecidableEq, Repr

/-- Conversion of one raw service entry to the returned dict
(storage.py lines 136-142). -/
def convEntry (e : RawEntry) : ListingEntry :=
  ⟨e.objKey, e.lastModified, e.sizeField.getD 0⟩

/-- storage.py line 135: page.get("Contents", ...) with an empty-list
default, then the inner loop converting each entry. -/
def pageEntries : Option (List RawEntry) → List ListingEntry
  | none => []
  | some es => es.map convEntry

/-- Outcome of fetching one page during paginator iteration: a page
whose optional Contents field is as given, or an exception raised while
fetching the page. -/
inductive PageOutcome where
  | page (contents : Option (List RawEntry))
  | failure
  deriving DecidableEq, Repr

/-- The pagination loop of storage.py lines 133-143, with the
accumulated items and the trace so far.  There is no try block around
the loop: a page failure propagates the exception. -/
def listPages : List PageOutcome → List ListingEntry → List Event →
    OpOut (List ListingEntry)
  | [], acc, tr => ⟨.ok acc, tr⟩
  | .failure :: _, _, tr => ⟨.error (), tr ++ [.remoteCall "list_objects_v2"]⟩
  | .page c :: rest, acc, tr =>
      listPages rest (acc ++ pageEntries c) (tr ++ [.remoteCall "list_objects_v2"])

/-- storage.py lines 128-143:
def s3_list_objects(prefix):
    if not s3_enabled(): return []
    paginator = client.get_paginator("list_objects_v2")
    items = []
    for page in paginator.paginate(Bucket=S3_BUCKET, Prefix=prefix):
        for entry in page.get("Contents", []): items.append(...)
    return items
pages is the oracle for the successive page fetches. -/
def s3_list_objects (cfg : Config) (pre : String)
    (pages : List PageOutcome) : OpOut (List ListingEntry) :=
  if s3_enabled cfg = false then ⟨.ok [], []⟩
  else listPages pages [] []

/-- storage.py lines 146-153:
def ensure_local_file(local_path, key):
    if os.path.exists(local_path): return True
    if not s3_enabled(): return False
    if not s3_object_exists(key): return False
    return s3_download_file(key, local_path)
localExists models os.path.exists(local_path); the head, mk and dl
oracles drive the two called operations.  An exception escaping
s3_object_exists propagates through ensure_local_file as well. -/
def ensure_local_file (cfg : Config) (localPath key : String)
    (localExists : Bool) (head : CallOutcome) (mk : SimpleOutcome)
    (dl : CallOutcome) : OpOut Bool :=
  if localExists then ⟨.ok true, []⟩
  else if s3_enabled cfg = false then ⟨.ok false, []⟩
  else
    let ex := s3_object_exists cfg key head
    match ex.res with
    | .error _ => ⟨.error (), ex.trace⟩
    | .ok false => ⟨.ok false, ex.trace⟩
    | .ok true =>
        let d := s3_download_file cfg key localPath mk dl
        ⟨d.res, ex.trace ++ d.trace⟩

/-- Outcome of int(value.timestamp() * 1000) for a datetime value: the
resulting integer milliseconds, or an exception during conversion
(the float arithmetic itself is abstracted into this oracle). -/
inductive TsOutcome where
  | ok (ms : Int)
  | fail
  deriving DecidableEq, Repr

/-- storage.py lines 156-162:
def parse_s3_last_modified(value):
    if not value: return None
    try:
        return int(value.timestamp() * 1000)
    except Exception:
        return None
A datetime object is always truthy, so the falsy test is exactly the
None test. -/
def parse_s3_last_modified : Option TsOutcome → Option Int
  | none => none
  | some (.ok ms) => some ms
  | some .fail => none

/-- A sample enabled configuration, used to instantiate theorems at
concrete inputs. -/
def cfgOn : Config := ⟨"s3", false, some "bucket", "deepwiki"⟩

/-- A sample disabled configuration: local backend, no enable flag. -/
def cfgOff : Config := ⟨"local", false, some "bucket", "deepwiki"⟩


/-- Boolean test: the first character of the string is a slash. -/
def headIsSlash (s : String) : Bool := s.data.head? == some '/'

/-- Boolean test: the last character of the string is a slash. -/
def lastIsSlash (s : String) : Bool := s.data.getLast? == some '/'

/-- Boolean test: the operation returned normally (no exception crossed
the public boundary). -/
def resOk {α : Type} : Except Unit α → Bool
  | .ok _ => true
  | .error _ => false

/-- A local filesystem state: the set of existing files and of existing
directories, as lists of paths. -/
structure FS where
  files : List String
  dirs : List String
  deriving DecidableEq, Repr

/-- Interpretation of one trace event on a filesystem state: makedirs
adds the directory, a file write adds the file, remote calls and log
records leave the filesystem unchanged. -/
def applyEvent (fs : FS) : Event → FS
  | .makedirs d => ⟨fs.files, d :: fs.dirs⟩
  | .fileWrite p => ⟨p :: fs.files, fs.dirs⟩
  | .remoteCall _ => fs
  | .errorLog => fs

/-- Interpretation of a whole trace on a filesystem state, in order. -/
def applyTrace (fs : FS) (tr : List Event) : FS := tr.foldl applyEvent fs

theorem head_dropWhile_ne_slash (l : List Char) :
    (l.dropWhile (fun c => c = '/')).head? ≠ some '/' := by
  induction l with
  | nil => simp [List.dropWhile]
  | cons c t ih =>
    by_cases h : c = '/'
    · simpa [List.dropWhile_cons, h] using ih
    · simp [List.dropWhile_cons, h]

theorem getLast_dropWhile_of_ne_nil (p : Char → Bool) (l : List Char)
    (h : l.dropWhile p ≠ []) : (l.dropWhile p).getLast? = l.getLast? := by
  induction l with
  | nil => simp at h
  | cons c t ih =>
    by_cases hc : p c
    · rw [List.dropWhile_cons_of_pos hc] at h ⊢
      have ht : t ≠ [] := by
        intro e
        subst e
        simp [List.dropWhile] at h
      cases t with
      | nil => exact absurd rfl ht
      | cons x xs => rw [ih h, List.getLast?_cons_cons]
    · rw [List.dropWhile_cons_of_neg hc]

theorem stripSlashes_head (s : String) :
    (stripSlashes s).data.head? ≠ some '/' := by
  unfold stripSlashes
  set l1 := s.data.dropWhile (fun c => c = '/') with hl1
  set l2 := l1.reverse.dropWhile (fun c => c = '/') with hl2
  show l2.reverse.head? ≠ some '/'
  rw [List.head?_reverse]
  by_cases h2 : l2 = []
  · simp [h2]
  · rw [hl2, getLast_dropWhile_of_ne_nil _ _ (by rw [← hl2]; exact h2),
      List.getLast?_reverse]
    exact head_dropWhile_ne_slash _

theorem stripSlashes_last (s : String) :
    (stripSlashes s).data.getLast? ≠ some '/' := by
  unfold stripSlashes
  rw [List.getLast?_reverse]
  exact head_dropWhile_ne_slash _

theorem string_data_ne_nil (s : String) (h : s ≠ "") : s.data ≠ [] := by
  intro hd
  apply h
  cases s with
  | mk l =>
    cases hd
    rfl

theorem cleanParts_mem (sep : Char) (parts : List String) (q : String)
    (hq : q ∈ cleanParts sep parts) :
    q.data ≠ [] ∧ q.data.head? ≠ some '/' ∧ q.data.getLast? ≠ some '/' := by
  unfold cleanParts at hq
  rw [List.mem_filterMap] at hq
  obtain ⟨a, _, ha⟩ := hq
  by_cases h0 : a = ""
  · simp [h0] at ha
  · simp only [h0, if_false] at ha
    by_cases h1 : stripSlashes (replaceSep sep a) = ""
    · simp [h1] at ha
    · simp only [h1, if_false, if_neg, Option.some_inj] at ha
      have hq' : q = stripSlashes (replaceSep sep a) := by
        by_cases h2 : stripSlashes (replaceSep sep a) = "" <;> simp_all
      subst hq'
      exact ⟨string_data_ne_nil _ h1, stripSlashes_head _, stripSlashes_last _⟩

theorem joinSlash_data_ne_nil (l : List String) (hl : l ≠ [])
    (h : ∀ q ∈ l, q.data ≠ []) : (joinSlash l).data ≠ [] := by
  cases l with
  | nil => exact absurd rfl hl
  | cons s t =>
    cases t with
    | nil => exact h s (by simp)
    | cons x xs =>
      show (s ++ "/" ++ joinSlash (x :: xs)).data ≠ []
      rw [String.data_append, String.data_append]
      intro e
      exact h s (by simp) (List.append_eq_nil.mp (List.append_eq_nil.mp e).1).1

theorem joinSlash_head (l : List String)
    (h : ∀ q ∈ l, q.data ≠ [] ∧ q.data.head? ≠ some '/') :
    (joinSlash l).data.head? ≠ some '/' := by
  cases l with
  | nil => simp [joinSlash]
  | cons s t =>
    cases t with
    | nil => exact (h s (by simp)).2
    | cons x xs =>
      show (s ++ "/" ++ joinSlash (x :: xs)).data.head? ≠ some '/'
      rw [String.data_append, String.data_append, List.append_assoc]
      obtain ⟨hs, hh⟩ := h s (by simp)
      cases hd : s.data with
      | nil => exact absurd hd hs
      | cons c cs =>
        rw [hd] at hh
        rw [List.cons_append, List.head?_cons]
        rw [List.head?_cons] at hh
        exact hh

theorem joinSlash_last (l : List String)
    (h : ∀ q ∈ l, q.data ≠ [] ∧ q.data.getLast? ≠ some '/') :
    (joinSlash l).data.getLast? ≠ some '/' := by
  induction l with
  | nil => simp [joinSlash]
  | cons s t ih =>
    cases t with
    | nil => exact (h s (by simp)).2
    | cons x xs =>
      show (s ++ "/" ++ joinSlash (x :: xs)).data.getLast? ≠ some '/'
      rw [String.data_append]
      have hj : (joinSlash (x :: xs)).data ≠ [] :=
        joinSlash_data_ne_nil _ (by simp) (fun q hq => (h q (by simp [hq])).1)
      rw [List.getLast?_append_of_ne_nil _ hj]
      exact ih (fun q hq => h q (by simp [hq]))

theorem build_s3_key_eq (sep : Char) (ns : String) (parts : List String) :
    build_s3_key sep ns parts =
      if stripSlashes ns ≠ "" then
        (if joinSlash (cleanParts sep parts) ≠ "" then
          stripSlashes ns ++ "/" ++ joinSlash (cleanParts sep parts)
        else stripSlashes ns)
      else joinSlash (cleanParts sep parts) := rfl

theorem build_s3_key_no_lead_trail (sep : Char) (ns : String)
    (parts : List String) :
    (build_s3_key sep ns parts).data.head? ≠ some '/' ∧
    (build_s3_key sep ns parts).data.getLast? ≠ some '/' := by
  have hmem := cleanParts_mem sep parts
  have hkh : (joinSlash (cleanParts sep parts)).data.head? ≠ some '/' :=
    joinSlash_head _ (fun q hq => ⟨(hmem q hq).1, (hmem q hq).2.1⟩)
  have hkl : (joinSlash (cleanParts sep parts)).data.getLast? ≠ some '/' :=
    joinSlash_last _ (fun q hq => ⟨(hmem q hq).1, (hmem q hq).2.2⟩)
  rw [build_s3_key_eq]
  by_cases hp : stripSlashes ns ≠ ""
  · rw [if_pos hp]
    by_cases hk : joinSlash (cleanParts sep parts) ≠ ""
    · rw [if_pos hk]
      refine ⟨?_, ?_⟩
      · rw [String.data_append, String.data_append, List.append_assoc]
        have hph := stripSlashes_head ns
        cases hd : (stripSlashes ns).data with
        | nil => exact absurd hd (string_data_ne_nil _ hp)
        | cons c cs =>
          rw [hd, List.head?_cons] at hph
          rw [List.cons_append, List.head?_cons]
          exact hph
      · rw [String.data_append,
          List.getLast?_append_of_ne_nil _ (string_data_ne_nil _ hk)]
        exact hkl
    · rw [if_neg hk]
      exact ⟨stripSlashes_head ns, stripSlashes_last ns⟩
  · rw [if_neg hp]
    exact ⟨hkh, hkl⟩

theorem dropWhile_slash_all (l : List Char) (h : ∀ c ∈ l, c = '/') :
    l.dropWhile (fun c => c = '/') = [] := by
  induction l with
  | nil => rfl
  | cons c t ih =>
    have hc : c = '/' := h c (by simp)
    rw [List.dropWhile_cons_of_pos (by simp [hc])]
    exact ih (fun x hx => h x (by simp [hx]))

theorem stripSlashes_eq_empty (ns : String) (h : ∀ c ∈ ns.data, c = '/') :
    stripSlashes ns = "" := by
  unfold stripSlashes
  rw [dropWhile_slash_all _ h]
  rfl

/-- Claim C3, corrected: build_s3_key drops empty segments, replaces the
OS separator by a slash, strips leading and trailing slashes from each
segment, joins with a slash and prepends the configured namespace; the
two concrete examples of the spec hold, and the result never has a
leading or a trailing slash.  The further guarantee of the claim, that
the result never contains an empty segment, is false: see the
counterexample with a segment containing two consecutive internal
slashes. -/
theorem C3_amended :
    build_s3_key '/' "deepwiki" ["a", "", "b/", "/c"] = "deepwiki/a/b/c" ∧
    build_s3_key '/' "deepwiki" [] = "deepwiki" ∧
    ∀ sep ns parts,
      headIsSlash (build_s3_key sep ns parts) = false ∧
      lastIsSlash (build_s3_key sep ns parts) = false := by
  refine ⟨by decide, by decide, fun sep ns parts => ?_⟩
  have h := build_s3_key_no_lead_trail sep ns parts
  constructor
  · simpa [headIsSlash] using h.1
  · simpa [lastIsSlash] using h.2

/-- Claim C3 counterexample: a single caller-supplied segment with two
consecutive internal slashes is kept verbatim by the strip of only
leading and trailing slashes, so the built key contains an empty
slash-separated segment, refuting the claim that the resulting key
never contains empty segments. -/
theorem C3_counterexample :
    build_s3_key '/' "deepwiki" ["a//b"] = "deepwiki/a//b" ∧
    "" ∈ splitSlash (build_s3_key '/' "deepwiki" ["a//b"]) :=
  ⟨by decide, by decide⟩

/-- Claim C9: when the configured namespace is empty or consists only of
slashes, build_s3_key returns just the cleaned segments joined with a
slash, with no leading slash, and with no segments it returns the empty
string. -/
theorem C9_slash_only_namespace (sep : Char) (ns : String)
    (parts : List String) (h : ∀ c ∈ ns.data, c = '/') :
    build_s3_key sep ns parts = joinSlash (cleanParts sep parts) ∧
    build_s3_key sep ns [] = "" ∧
    headIsSlash (build_s3_key sep ns parts) = false := by
  have he := stripSlashes_eq_empty ns h
  have h1 : build_s3_key sep ns parts = joinSlash (cleanParts sep parts) := by
    rw [build_s3_key_eq, he]
    simp
  refine ⟨h1, ?_, ?_⟩
  · rw [build_s3_key_eq, he]
    simp [cleanParts, joinSlash]
  · rw [h1]
    have hh := joinSlash_head (cleanParts sep parts)
      (fun q hq => ⟨(cleanParts_mem sep parts q hq).1,
        (cleanParts_mem sep parts q hq).2.1⟩)
    simpa [headIsSlash] using hh

/-- Witness for C9: the namespace of two slashes strips to nothing and
the key is just the joined segments. -/
theorem C9_witness :
    build_s3_key '/' "//" ["a", "b"] = joinSlash (cleanParts '/' ["a", "b"]) ∧
    build_s3_key '/' "//" [] = "" ∧
    headIsSlash (build_s3_key '/' "//" ["a", "b"]) = false :=
  C9_slash_only_namespace '/' "//" ["a", "b"] (by decide)

theorem s3_enabled_false_of (cfg : Config)
    (h : cfg.s3Bucket = none ∨
      (cfg.storageBackend ≠ "s3" ∧ cfg.s3EnabledEnv = false)) :
    s3_enabled cfg = false := by
  rcases h with h | ⟨h1, h2⟩
  · simp [s3_enabled, h, pyTruthyOpt]
  · simp [s3_enabled, h1, h2]

/-- Claim C2: in every configuration where the store is not enabled
(bucket unset, or backend not s3 and the explicit-enable flag not
truthy), is_enabled is false and every remote operation returns its
falsy, empty or None result with an empty event trace: no remote call,
no log record, no filesystem effect, and no exception. -/
theorem C2_disabled_noop (cfg : Config)
    (h : cfg.s3Bucket = none ∨
      (cfg.storageBackend ≠ "s3" ∧ cfg.s3EnabledEnv = false)) :
    s3_enabled cfg = false ∧
    (∀ key head, s3_object_exists cfg key head = ⟨.ok false, []⟩) ∧
    (∀ (α : Type) (key : String) (get : GetOutcome α),
      s3_read_json cfg key get = ⟨.ok none, []⟩) ∧
    (∀ key put, s3_write_json cfg key put = ⟨.ok false, []⟩) ∧
    (∀ key path mk dl, s3_download_file cfg key path mk dl = ⟨.ok false, []⟩) ∧
    (∀ path key src up, s3_upload_file cfg path key src up = ⟨.ok false, []⟩) ∧
    (∀ key del, s3_delete_object cfg key del = ⟨.ok false, []⟩) ∧
    (∀ pre pages, s3_list_objects cfg pre pages = ⟨.ok [], []⟩) := by
  have he := s3_enabled_false_of cfg h
  refine ⟨he, ?_, ?_, ?_, ?_, ?_, ?_, ?_⟩ <;> intros <;>
    simp [s3_object_exists, s3_read_json, s3_write_json, s3_download_file,
      s3_upload_file, s3_delete_object, s3_list_objects, he]

/-- Witness for C2 at a local-backend configuration with a bucket set:
the enable test is false and two sample operations are no-ops. -/
theorem C2_witness :
    s3_enabled cfgOff = false ∧
    s3_object_exists cfgOff "k" CallOutcome.otherError = ⟨.ok false, []⟩ ∧
    s3_list_objects cfgOff "p" [PageOutcome.failure] = ⟨.ok [], []⟩ := by
  have h := C2_disabled_noop cfgOff (Or.inr ⟨by decide, rfl⟩)
  exact ⟨h.1, h.2.1 "k" CallOutcome.otherError,
    h.2.2.2.2.2.2.2 "p" [PageOutcome.failure]⟩

theorem listPages_error_iff (pages : List PageOutcome)
    (acc : List ListingEntry) (tr : List Event) :
    ((listPages pages acc tr).res = Except.error ()) ↔
      PageOutcome.failure ∈ pages := by
  induction pages generalizing acc tr with
  | nil => simp [listPages]
  | cons p rest ih =>
    cases p with
    | failure => simp [listPages]
    | page c =>
      simpa [listPages] using
        ih (acc ++ pageEntries c) (tr ++ [Event.remoteCall "list_objects_v2"])

theorem s3_download_file_resOk (cfg : Config) (key path : String)
    (mk : SimpleOutcome) (dl : CallOutcome) :
    resOk (s3_download_file cfg key path mk dl).res = true := by
  cases hE : s3_enabled cfg
  · cases mk <;> cases dl <;> simp [s3_download_file, resOk, hE]
  · cases mk
    · cases dl
      · simp [s3_download_file, resOk, hE]
      · rename_i code
        cases hc : isNotFoundCode code <;>
          simp [s3_download_file, resOk, hE, hc]
      · simp [s3_download_file, resOk, hE]
    · simp [s3_download_file, resOk, hE]

theorem s3_download_file_ne_error (cfg : Config) (key path : String)
    (mk : SimpleOutcome) (dl : CallOutcome) :
    (s3_download_file cfg key path mk dl).res ≠ Except.error () := by
  have h := s3_download_file_resOk cfg key path mk dl
  intro e
  rw [e] at h
  simp [resOk] at h

theorem s3_read_json_resOk {α : Type} (cfg : Config) (key : String)
    (get : GetOutcome α) : resOk (s3_read_json cfg key get).res = true := by
  cases hE : s3_enabled cfg
  · simp [s3_read_json, resOk, hE]
  · cases get with
    | ok doc => cases doc <;> simp [s3_read_json, resOk, hE]
    | clientError code =>
        cases hc : isNotFoundCode code <;> simp [s3_read_json, resOk, hE, hc]
    | otherError => simp [s3_read_json, resOk, hE]

theorem s3_write_json_resOk (cfg : Config) (key : String) (put : PutOutcome) :
    resOk (s3_write_json cfg key put).res = true := by
  cases hE : s3_enabled cfg <;> cases put <;> simp [s3_write_json, resOk, hE]

theorem s3_upload_file_resOk (cfg : Config) (path key : String)
    (src : Bool) (up : SimpleOutcome) :
    resOk (s3_upload_file cfg path key src up).res = true := by
  cases hE : s3_enabled cfg <;> cases src <;> cases up <;>
    simp [s3_upload_file, resOk, hE]

theorem s3_delete_object_resOk (cfg : Config) (key : String)
    (del : SimpleOutcome) :
    resOk (s3_delete_object cfg key del).res = true := by
  cases hE : s3_enabled cfg <;> cases del <;>
    simp [s3_delete_object, resOk, hE]

theorem s3_object_exists_error_iff (cfg : Config) (key : String)
    (head : CallOutcome) :
    ((s3_object_exists cfg key head).res = Except.error ()) ↔
      (s3_enabled cfg = true ∧ head = CallOutcome.otherError) := by
  cases hE : s3_enabled cfg
  · simp [s3_object_exists, hE]
  · cases head with
    | ok => simp [s3_object_exists, hE]
    | clientError code =>
        cases hc : isNotFoundCode code <;> simp [s3_object_exists, hE, hc]
    | otherError => simp [s3_object_exists, hE]

theorem s3_list_objects_error_iff (cfg : Config) (pre : String)
    (pages : List PageOutcome) :
    ((s3_list_objects cfg pre pages).res = Except.error ()) ↔
      (s3_enabled cfg = true ∧ PageOutcome.failure ∈ pages) := by
  cases hE : s3_enabled cfg
  · simp [s3_list_objects, hE]
  · simp [s3_list_objects, hE, listPages_error_iff]

theorem ensure_local_file_error_iff (cfg : Config) (path key : String)
    (le : Bool) (head : CallOutcome) (mk : SimpleOutcome) (dl : CallOutcome) :
    ((ensure_local_file cfg path key le head mk dl).res = Except.error ()) ↔
      (le = false ∧ s3_enabled cfg = true ∧ head = CallOutcome.otherError) := by
  cases le
  · cases hE : s3_enabled cfg
    · simp [ensure_local_file, hE]
    · cases head with
      | ok =>
          simp [ensure_local_file, s3_object_exists, hE,
            s3_download_file_ne_error cfg key path mk dl]
      | clientError code =>
          cases hc : isNotFoundCode code <;>
            simp [ensure_local_file, s3_object_exists, hE, hc]
      | otherError => simp [ensure_local_file, s3_object_exists, hE]
  · simp [ensure_local_file]

theorem parse_s3_last_modified_total (v : Option TsOutcome) :
    parse_s3_last_modified v = none ∨
      ∃ ms, parse_s3_last_modified v = some ms := by
  cases v with
  | none => exact Or.inl rfl
  | some t =>
    cases t with
    | ok ms => exact Or.inr ⟨ms, rfl⟩
    | fail => exact Or.inl rfl

/-- Claim C1, corrected: the claim that no public operation ever
propagates an exception is false for two operations.  What holds:
read_json, write_json, download_to_local, upload_from_local, delete and
normalize_remote_timestamp return their normal result for every
configuration and every outcome of the underlying calls; but exists
propagates a failure of the existence check exactly when the store is
enabled and the failure is not a ClientError (only ClientError is
caught), ensure_local inherits that same propagation through its
existence check, and list_by_prefix propagates any failure of the
underlying listing exactly when the store is enabled and some page
fetch fails (the pagination loop has no handler at all). -/
theorem C1_amended :
    (∀ cfg key head, ((s3_object_exists cfg key head).res = Except.error ()) ↔
      (s3_enabled cfg = true ∧ head = CallOutcome.otherError)) ∧
    (∀ (α : Type) (cfg : Config) (key : String) (get : GetOutcome α),
      resOk (s3_read_json cfg key get).res = true) ∧
    (∀ cfg key put, resOk (s3_write_json cfg key put).res = true) ∧
    (∀ cfg key path mk dl,
      resOk (s3_download_file cfg key path mk dl).res = true) ∧
    (∀ cfg path key src up,
      resOk (s3_upload_file cfg path key src up).res = true) ∧
    (∀ cfg key del, resOk (s3_delete_object cfg key del).res = true) ∧
    (∀ cfg pre pages, ((s3_list_objects cfg pre pages).res = Except.error ()) ↔
      (s3_enabled cfg = true ∧ PageOutcome.failure ∈ pages)) ∧
    (∀ cfg path key le head mk dl,
      ((ensure_local_file cfg path key le head mk dl).res = Except.error ()) ↔
      (le = false ∧ s3_enabled cfg = true ∧ head = CallOutcome.otherError)) ∧
    (∀ v, parse_s3_last_modified v = none ∨
      ∃ ms, parse_s3_last_modified v = some ms) :=
  ⟨s3_object_exists_error_iff,
   fun α cfg key get => s3_read_json_resOk cfg key get,
   s3_write_json_resOk,
   s3_download_file_resOk,
   s3_upload_file_resOk,
   s3_delete_object_resOk,
   s3_list_objects_error_iff,
   ensure_local_file_error_iff,
   parse_s3_last_modified_total⟩

/-- Claim C1 counterexample: with the store enabled, a failure while
fetching a listing page makes list_by_prefix propagate the exception
across the public boundary instead of returning a sequence, refuting
the claim that no public operation ever raises. -/
theorem C1_counterexample :
    (s3_list_objects cfgOn "p" [PageOutcome.failure]).res = Except.error () := by
  decide

/-- Claim C5, corrected: with the store enabled, exists and read_json
translate a not-found ClientError into false or absent without an error
log record; every other ClientError is logged and yields false or
absent; for read_json every remaining failure (malformed payload, or an
exception that is not a ClientError) is also logged and yields absent;
but for exists a failure that is not a ClientError is neither caught
nor logged: the exception propagates, refuting the claim that every
other failure is logged and yields false. -/
theorem C5_amended (α : Type) (cfg : Config) (key : String)
    (code : Option String) (h : s3_enabled cfg = true) :
    (isNotFoundCode code = true →
      s3_object_exists cfg key (CallOutcome.clientError code) =
        ⟨.ok false, [.remoteCall "head_object"]⟩) ∧
    (isNotFoundCode code = false →
      s3_object_exists cfg key (CallOutcome.clientError code) =
        ⟨.ok false, [.remoteCall "head_object", .errorLog]⟩) ∧
    ((s3_object_exists cfg key CallOutcome.otherError).res =
        Except.error () ∧
      Event.errorLog ∉ (s3_object_exists cfg key CallOutcome.otherError).trace) ∧
    (isNotFoundCode code = true →
      s3_read_json cfg key (GetOutcome.clientError code : GetOutcome α) =
        ⟨.ok none, [.remoteCall "get_object"]⟩) ∧
    (isNotFoundCode code = false →
      s3_read_json cfg key (GetOutcome.clientError code : GetOutcome α) =
        ⟨.ok none, [.remoteCall "get_object", .errorLog]⟩) ∧
    (s3_read_json cfg key (GetOutcome.ok (none : Option α)) =
      ⟨.ok none, [.remoteCall "get_object", .errorLog]⟩) ∧
    (s3_read_json cfg key (GetOutcome.otherError : GetOutcome α) =
      ⟨.ok none, [.remoteCall "get_object", .errorLog]⟩) := by
  refine ⟨fun hc => ?_, fun hc => ?_, ⟨?_, ?_⟩, fun hc => ?_, fun hc => ?_,
    ?_, ?_⟩ <;>
    simp [s3_object_exists, s3_read_json, h] <;>
    simp_all

/-- Witness for C5 at an enabled configuration with the 404 code. -/
theorem C5_witness :
    s3_object_exists cfgOn "k" (CallOutcome.clientError (some "404")) =
      ⟨.ok false, [.remoteCall "head_object"]⟩ ∧
    s3_read_json cfgOn "k"
        (GetOutcome.clientError (some "404") : GetOutcome Nat) =
      ⟨.ok none, [.remoteCall "get_object"]⟩ := by
  have h := C5_amended Nat cfgOn "k" (some "404") (by decide)
  exact ⟨h.1 (by decide), h.2.2.2.1 (by decide)⟩

/-- Claim C5 counterexample: with the store enabled, a failure of the
existence check that is not a ClientError is neither logged nor turned
into false: the exception propagates out of exists. -/
theorem C5_counterexample :
    (s3_object_exists cfgOn "k" CallOutcome.otherError).res =
      Except.error () ∧
    Event.errorLog ∉ (s3_object_exists cfgOn "k" CallOutcome.otherError).trace := by
  decide

/-- Claim C4: ensure_local returns true immediately with no remote call
when the local path exists; returns false when the path is absent and
the store is disabled; otherwise checks remote existence and, when the
object is present, returns the download result, and when the object is
absent remotely (not-found), returns false. -/
theorem C4_ensure_local (cfg : Config) (path key : String)
    (head : CallOutcome) (mk : SimpleOutcome) (dl : CallOutcome) :
    (ensure_local_file cfg path key true head mk dl = ⟨.ok true, []⟩) ∧
    (s3_enabled cfg = false →
      ensure_local_file cfg path key false head mk dl = ⟨.ok false, []⟩) ∧
    (s3_enabled cfg = true → head = CallOutcome.ok →
      (ensure_local_file cfg path key false head mk dl).res =
        (s3_download_file cfg key path mk dl).res) ∧
    (∀ code, s3_enabled cfg = true → head = CallOutcome.clientError code →
      isNotFoundCode code = true →
      ensure_local_file cfg path key false head mk dl =
        ⟨.ok false, [.remoteCall "head_object"]⟩) := by
  refine ⟨?_, ?_, ?_, ?_⟩
  · simp [ensure_local_file]
  · intro h
    simp [ensure_local_file, h]
  · intro h hh
    subst hh
    simp [ensure_local_file, s3_object_exists, h]
  · intro code h hh hc
    subst hh
    simp [ensure_local_file, s3_object_exists, h, hc]

/-- Witness for C4 across its four cases, at enabled and disabled
configurations. -/
theorem C4_witness :
    ensure_local_file cfgOn "p" "k" true CallOutcome.ok SimpleOutcome.ok
      CallOutcome.ok = ⟨.ok true, []⟩ ∧
    ensure_local_file cfgOff "p" "k" false CallOutcome.ok SimpleOutcome.ok
      CallOutcome.ok = ⟨.ok false, []⟩ ∧
    (ensure_local_file cfgOn "p" "k" false CallOutcome.ok SimpleOutcome.ok
      CallOutcome.ok).res = (s3_download_file cfgOn "k" "p" SimpleOutcome.ok
      CallOutcome.ok).res ∧
    ensure_local_file cfgOn "p" "k" false
      (CallOutcome.clientError (some "404")) SimpleOutcome.ok CallOutcome.ok =
      ⟨.ok false, [.remoteCall "head_object"]⟩ := by
  have h1 := C4_ensure_local cfgOn "p" "k" CallOutcome.ok SimpleOutcome.ok
    CallOutcome.ok
  have h2 := C4_ensure_local cfgOff "p" "k" CallOutcome.ok SimpleOutcome.ok
    CallOutcome.ok
  have h3 := C4_ensure_local cfgOn "p" "k" (CallOutcome.clientError
    (some "404")) SimpleOutcome.ok CallOutcome.ok
  exact ⟨h1.1, h2.2.1 (by decide), h1.2.2.1 (by decide) rfl,
    h3.2.2.2 (some "404") (by decide) rfl (by decide)⟩

theorem listPages_all_pages (ps : List (Option (List RawEntry)))
    (acc : List ListingEntry) (tr : List Event) :
    listPages (ps.map PageOutcome.page) acc tr =
      ⟨.ok (acc ++ (ps.map pageEntries).flatten),
        tr ++ ps.map (fun x => Event.remoteCall "list_objects_v2")⟩ := by
  induction ps generalizing acc tr with
  | nil => simp [listPages]
  | cons c rest ih => simp [listPages, ih]

/-- Claim C6: with the store disabled, list_by_prefix is the empty
sequence with no remote call; with the store enabled and every page
fetch succeeding, it returns exactly the concatenation, in page order,
of the converted entries of every page. -/
theorem C6_list_pagination (cfg : Config) (pre : String) :
    (s3_enabled cfg = false →
      ∀ pages, s3_list_objects cfg pre pages = ⟨.ok [], []⟩) ∧
    (s3_enabled cfg = true → ∀ ps : List (Option (List RawEntry)),
      (s3_list_objects cfg pre (ps.map PageOutcome.page)).res =
        .ok ((ps.map pageEntries).flatten)) := by
  constructor
  · intro h pages
    simp [s3_list_objects, h]
  · intro h ps
    simp [s3_list_objects, h, listPages_all_pages]

/-- Witness for C6: three pages, one of them with a missing Contents
field, aggregated in page order. -/
theorem C6_witness :
    (s3_list_objects cfgOn "p"
        (([some [⟨"k1", none, some 5⟩], none,
          some [⟨"k2", some 7, none⟩, ⟨"k3", none, none⟩]] :
            List (Option (List RawEntry))).map PageOutcome.page)).res =
      .ok ((([some [⟨"k1", none, some 5⟩], none,
          some [⟨"k2", some 7, none⟩, ⟨"k3", none, none⟩]] :
            List (Option (List RawEntry))).map pageEntries).flatten) :=
  (C6_list_pagination cfgOn "p").2 (by decide) _

/-- Claim C7: with the store enabled, download_to_local creates the
parent directory of the destination before any write of the destination
file; a not-found ClientError yields false with no error log; any other
failure (another ClientError code, a non-ClientError exception, or a
makedirs failure) is logged and yields false; the operation never
raises. -/
theorem C7_download (cfg : Config) (key path : String) (mk : SimpleOutcome)
    (dl : CallOutcome) (h : s3_enabled cfg = true) :
    (resOk (s3_download_file cfg key path mk dl).res = true) ∧
    (mk = SimpleOutcome.ok → dl = CallOutcome.ok →
      s3_download_file cfg key path mk dl =
        ⟨.ok true, [.makedirs (dirname path), .remoteCall "download_file",
          .fileWrite path]⟩) ∧
    (∀ code, mk = SimpleOutcome.ok → dl = CallOutcome.clientError code →
      isNotFoundCode code = true →
      s3_download_file cfg key path mk dl =
        ⟨.ok false, [.makedirs (dirname path), .remoteCall "download_file"]⟩) ∧
    (∀ code, mk = SimpleOutcome.ok → dl = CallOutcome.clientError code →
      isNotFoundCode code = false →
      s3_download_file cfg key path mk dl =
        ⟨.ok false, [.makedirs (dirname path), .remoteCall "download_file",
          .errorLog]⟩) ∧
    (mk = SimpleOutcome.ok → dl = CallOutcome.otherError →
      s3_download_file cfg key path mk dl =
        ⟨.ok false, [.makedirs (dirname path), .remoteCall "download_file",
          .errorLog]⟩) ∧
    (mk = SimpleOutcome.err →
      s3_download_file cfg key path mk dl = ⟨.ok false, [.errorLog]⟩) ∧
    (Event.fileWrite path ∈ (s3_download_file cfg key path mk dl).trace →
      (s3_download_file cfg key path mk dl).trace =
        [.makedirs (dirname path), .remoteCall "download_file",
          .fileWrite path]) := by
  refine ⟨s3_download_file_resOk cfg key path mk dl, ?_, ?_, ?_, ?_, ?_, ?_⟩
  · intro h1 h2
    subst h1; subst h2
    simp [s3_download_file, h]
  · intro code h1 h2 hc
    subst h1; subst h2
    simp [s3_download_file, h, hc]
  · intro code h1 h2 hc
    subst h1; subst h2
    simp [s3_download_file, h, hc]
  · intro h1 h2
    subst h1; subst h2
    simp [s3_download_file, h]
  · intro h1
    subst h1
    cases dl <;> simp [s3_download_file, h]
  · intro hw
    cases mk
    · cases dl with
      | ok => simp [s3_download_file, h]
      | clientError code =>
          exfalso
          cases hc : isNotFoundCode code <;>
            simp [s3_download_file, h, hc] at hw
      | otherError =>
          exfalso
          simp [s3_download_file, h] at hw
    · exfalso
      simp [s3_download_file, h] at hw

/-- Witness for C7 at an enabled configuration: a successful download
and a not-found download. -/
theorem C7_witness :
    s3_download_file cfgOn "k" "a/b/f.json" SimpleOutcome.ok CallOutcome.ok =
      ⟨.ok true, [.makedirs (dirname "a/b/f.json"),
        .remoteCall "download_file", .fileWrite "a/b/f.json"]⟩ ∧
    s3_download_file cfgOn "k" "a/b/f.json" SimpleOutcome.ok
        (CallOutcome.clientError (some "NoSuchKey")) =
      ⟨.ok false, [.makedirs (dirname "a/b/f.json"),
        .remoteCall "download_file"]⟩ := by
  have h1 := C7_download cfgOn "k" "a/b/f.json" SimpleOutcome.ok
    CallOutcome.ok (by decide)
  have h2 := C7_download cfgOn "k" "a/b/f.json" SimpleOutcome.ok
    (CallOutcome.clientError (some "NoSuchKey")) (by decide)
  exact ⟨h1.2.1 rfl rfl, h2.2.2.1 (some "NoSuchKey") rfl rfl (by decide)⟩

/-- Claim C8: with the store enabled, upload_from_local returns false
with no remote call when the source path does not exist; returns true
when the source exists and the upload succeeds; and logs and returns
false when the upload raises. -/
theorem C8_upload (cfg : Config) (path key : String) (up : SimpleOutcome)
    (h : s3_enabled cfg = true) :
    (s3_upload_file cfg path key false up = ⟨.ok false, []⟩) ∧
    (s3_upload_file cfg path key true SimpleOutcome.ok =
      ⟨.ok true, [.remoteCall "upload_file"]⟩) ∧
    (s3_upload_file cfg path key true SimpleOutcome.err =
      ⟨.ok false, [.remoteCall "upload_file", .errorLog]⟩) := by
  refine ⟨?_, ?_, ?_⟩ <;> simp [s3_upload_file, h]

/-- Witness for C8 at an enabled configuration. -/
theorem C8_witness :
    s3_upload_file cfgOn "p" "k" false SimpleOutcome.ok = ⟨.ok false, []⟩ ∧
    s3_upload_file cfgOn "p" "k" true SimpleOutcome.ok =
      ⟨.ok true, [.remoteCall "upload_file"]⟩ := by
  have h := C8_upload cfgOn "p" "k" SimpleOutcome.ok (by decide)
  exact ⟨h.1, h.2.1⟩

/-- Claim C10: with the store enabled and the remote object absent (a
not-found ClientError from the download call), download_to_local still
creates the parent directory of the destination before the download
attempt: after the call returns false, the parent directory exists in
the resulting filesystem state even though the destination file was
never written. -/
theorem C10_download_absent (cfg : Config) (key path : String)
    (code : Option String) (fs : FS) (h : s3_enabled cfg = true)
    (hc : isNotFoundCode code = true) (hd : dirname path ∉ fs.dirs) :
    (s3_download_file cfg key path SimpleOutcome.ok
        (CallOutcome.clientError code)).res = .ok false ∧
    (s3_download_file cfg key path SimpleOutcome.ok
        (CallOutcome.clientError code)).trace =
      [.makedirs (dirname path), .remoteCall "download_file"] ∧
    dirname path ∈
      (applyTrace fs (s3_download_file cfg key path SimpleOutcome.ok
        (CallOutcome.clientError code)).trace).dirs ∧
    (applyTrace fs (s3_download_file cfg key path SimpleOutcome.ok
        (CallOutcome.clientError code)).trace).files = fs.files := by
  refine ⟨?_, ?_, ?_, ?_⟩ <;>
    simp [s3_download_file, h, hc, applyTrace, applyEvent]

/-- Witness for C10 on the empty filesystem state. -/
theorem C10_witness :
    (s3_download_file cfgOn "k" "a/b/f" SimpleOutcome.ok
        (CallOutcome.clientError (some "404"))).res = .ok false ∧
    (s3_download_file cfgOn "k" "a/b/f" SimpleOutcome.ok
        (CallOutcome.clientError (some "404"))).trace =
      [.makedirs (dirname "a/b/f"), .remoteCall "download_file"] ∧
    dirname "a/b/f" ∈
      (applyTrace ⟨[], []⟩ (s3_download_file cfgOn "k" "a/b/f" SimpleOutcome.ok
        (CallOutcome.clientError (some "404"))).trace).dirs ∧
    (applyTrace ⟨[], []⟩ (s3_download_file cfgOn "k" "a/b/f" SimpleOutcome.ok
        (CallOutcome.clientError (some "404"))).trace).files = ([] : List String) :=
  C10_download_absent cfgOn "k" "a/b/f" (some "404") ⟨[], []⟩ (by decide)
    (by decide) (by decide)
